import Mathlib

/-!
Verification of the ErlangRT core: the BEAM module loader
(`src/beam/loader.rs`) and the control-flow opcode handlers
(`src/beam/opcodes/op_execution.rs`), shallowly embedded in Lean 4.

Files are modelled as lists of natural-number bytes.  Rust `Result`
values that a caller may inspect are modelled in-band as `Except`;
the distinction between a returned load error (`?` propagation) and a
Rust panic (`.unwrap()`, failed assertion, out-of-bounds index) is
tracked by the `Res` outcome type below.
-/

/-- The runtime error type (`rterror::Error`) as used by the loader:
a distinguished premature-EOF condition raised by the binary reader,
and a general code-loading failure carrying a message.  Messages are
kept as raw byte lists (latin-1 text). -/
inductive RtErr where
  | CodeLoadingPrematureEOF : RtErr
  | CodeLoadingFailed : List Nat → RtErr
deriving DecidableEq

/-- Outcome of running a piece of translated Rust code: a normal value,
an error value returned to the caller, or a Rust panic. -/
inductive Res (α : Type) where
  | ok : α → Res α
  | err : RtErr → Res α
  | panic : String → Res α
deriving DecidableEq

/-- True exactly when the outcome is a Rust panic. -/
def Res.isPanic {α : Type} [DecidableEq α] : Res α → Bool
  | Res.panic _ => true
  | _ => false

/-- ASCII string literal to byte list. -/
def ascii (s : String) : List Nat := s.data.map (fun c => c.toNat)

/-- Big-endian 4-byte encoding of a 32-bit value. -/
def u32be (n : Nat) : List Nat :=
  [n / 16777216 % 256, n / 65536 % 256, n / 256 % 256, n % 256]

/-- Modelled from the spec: the binary reader (`util::reader::BinaryReader`,
not part of the given sources) is a sequential big-endian reader over the
file bytes, raising a distinguished premature-end-of-input condition.
`read_bytes` returns that condition in-band (the Rust method returns
`Result`); methods without a `Result` return type panic on EOF. -/
def read_bytes (n : Nat) (s : List Nat) : Res (Except RtErr (List Nat) × List Nat) :=
  if n ≤ s.length then Res.ok (Except.ok (s.take n), s.drop n)
  else Res.ok (Except.error RtErr.CodeLoadingPrematureEOF, s)

/-- Modelled from the spec: `read_str_utf8` reads `n` bytes of UTF-8 text.
Strings are kept as their raw bytes (the claims compare atom names
byte-for-byte), so the decode step is the identity on bytes. -/
def read_str_utf8 (n : Nat) (s : List Nat) : Res (Except RtErr (List Nat) × List Nat) :=
  read_bytes n s

/-- Modelled from the spec: `read_str_latin1` reads `n` bytes of latin-1
text; latin-1 decoding is byte-per-character, again kept as raw bytes. -/
def read_str_latin1 (n : Nat) (s : List Nat) : Res (Except RtErr (List Nat) × List Nat) :=
  read_bytes n s

/-- Modelled from the spec: `ensure_bytes` checks that the next bytes equal
the given pattern (used for the `FOR1`/`BEAM` magic), failing with a load
error on mismatch and premature EOF when too few bytes remain. -/
def ensure_bytes (pat : List Nat) (s : List Nat) : Res (Except RtErr Unit × List Nat) :=
  if pat.length ≤ s.length then
    (if s.take pat.length = pat
     then Res.ok (Except.ok (), s.drop pat.length)
     else Res.ok (Except.error (RtErr.CodeLoadingFailed (ascii "Bad signature")), s))
  else Res.ok (Except.error RtErr.CodeLoadingPrematureEOF, s)

/-- Modelled from the spec: `read_u8` returns one byte; it has no `Result`
return type, so reaching EOF is a panic inside the reader. -/
def read_u8 (s : List Nat) : Res (Nat × List Nat) :=
  match s with
  | b :: rest => Res.ok (b, rest)
  | [] => Res.panic "premature EOF in read_u8"

/-- Modelled from the spec: `read_u16be` returns a big-endian 16-bit value,
panicking on EOF. -/
def read_u16be (s : List Nat) : Res (Nat × List Nat) :=
  match s with
  | b0 :: b1 :: rest => Res.ok (b0 * 256 + b1, rest)
  | _ => Res.panic "premature EOF in read_u16be"

/-- Modelled from the spec: `read_u32be` returns a big-endian 32-bit value,
panicking on EOF. -/
def read_u32be (s : List Nat) : Res (Nat × List Nat) :=
  match s with
  | b0 :: b1 :: b2 :: b3 :: rest =>
      Res.ok (((b0 * 256 + b1) * 256 + b2) * 256 + b3, rest)
  | _ => Res.panic "premature EOF in read_u32be"

/-- Modelled from the spec: `skip n` advances the reader past `n` bytes,
panicking when fewer than `n` bytes remain. -/
def rdSkip (n : Nat) (s : List Nat) : Res (Unit × List Nat) :=
  if n ≤ s.length then Res.ok ((), s.drop n)
  else Res.panic "premature EOF in skip"

/-- A VM-level term.  Only the shapes the embedded core touches are
modelled: interned atoms (identified by their index in the VM atom
table), embedded small integers, boxed code locations, boxed heap
references to `HOImport` objects, 2-tuples (for error values built by
`make_badfun`), and the loader's `non_value` placeholder. -/
inductive Term where
  | atom : Nat → Term
  | small : Nat → Term
  | boxCode : Nat → Term
  | boxImport : Bool → Option Nat → Term
  | tuple2 : Term → Term → Term
  | nonValue : Term
deriving DecidableEq

/-- Raw import entry as loaded from the BEAM file (`LImport`). -/
structure LImport where
  mod_atom : Nat
  fun_atom : Nat
  arity : Nat
deriving DecidableEq

/-- Raw export/local entry as loaded from the BEAM file (`LExport`). -/
structure LExport where
  fun_atom : Nat
  arity : Nat
  label : Nat
deriving DecidableEq

/-- Raw fun-table entry as loaded from the BEAM file (`LFun`). -/
structure LFun where
  fun_atom : Nat
  arity : Nat
  code_pos : Nat
  index : Nat
  nfree : Nat
  ouniq : Nat
deriving DecidableEq

/-- The loader state (`struct Loader`): atom strings as loaded from the
file, atoms converted to VM terms during stage 2, the raw import,
export, local and fun tables, and the module name term.  The Rust
struct has exactly these fields; in particular it has no field for the
code chunk's byte blob. -/
structure Loader where
  atom_tab : List (List Nat)
  vm_atoms : List Term
  imports : List LImport
  exports : List LExport
  locals : List LExport
  funs : List LFun
  mod_name : Term
deriving DecidableEq

/-- `Loader::new()`: the empty loader state. -/
def Loader.new : Loader :=
  { atom_tab := []
    vm_atoms := []
    imports := []
    exports := []
    locals := []
    funs := []
    mod_name := Term.nonValue }

/-- Inner loop of `load_atoms_utf8`: read `n` length-prefixed atom names,
appending each to the atom table.  The Rust code calls `.unwrap()` on the
reader's `Result`, so a read error inside an atom body is a panic. -/
def load_atoms_utf8_loop : Nat → Loader → List Nat → Res (Loader × List Nat)
  | 0, ld, s => Res.ok (ld, s)
  | Nat.succ n, ld, s =>
    match read_u8 s with
    | Res.ok (atom_bytes, s1) =>
      match read_str_utf8 atom_bytes s1 with
      | Res.ok (Except.ok atom_text, s2) =>
          load_atoms_utf8_loop n { ld with atom_tab := ld.atom_tab ++ [atom_text] } s2
      | Res.ok (Except.error _, _) => Res.panic "unwrap on Err in load_atoms_utf8"
      | Res.err e => Res.err e
      | Res.panic m => Res.panic m
    | Res.err e => Res.err e
    | Res.panic m => Res.panic m

/-- `Loader::load_atoms_utf8`: read the atom count then that many
length-prefixed atom names (`AtU8` chunk). -/
def Loader.load_atoms_utf8 (ld : Loader) (s : List Nat) : Res (Loader × List Nat) :=
  match read_u32be s with
  | Res.ok (n_atoms, s1) => load_atoms_utf8_loop n_atoms ld s1
  | Res.err e => Res.err e
  | Res.panic m => Res.panic m

/-- Inner loop of `load_atoms_latin1`; structurally identical to the UTF-8
variant (the two differ only in character decoding, which this model keeps
as raw bytes), including the `.unwrap()` panic on a read error. -/
def load_atoms_latin1_loop : Nat → Loader → List Nat → Res (Loader × List Nat)
  | 0, ld, s => Res.ok (ld, s)
  | Nat.succ n, ld, s =>
    match read_u8 s with
    | Res.ok (atom_bytes, s1) =>
      match read_str_latin1 atom_bytes s1 with
      | Res.ok (Except.ok atom_text, s2) =>
          load_atoms_latin1_loop n { ld with atom_tab := ld.atom_tab ++ [atom_text] } s2
      | Res.ok (Except.error _, _) => Res.panic "unwrap on Err in load_atoms_latin1"
      | Res.err e => Res.err e
      | Res.panic m => Res.panic m
    | Res.err e => Res.err e
    | Res.panic m => Res.panic m

/-- `Loader::load_atoms_latin1` (`Atom` chunk). -/
def Loader.load_atoms_latin1 (ld : Loader) (s : List Nat) : Res (Loader × List Nat) :=
  match read_u32be s with
  | Res.ok (n_atoms, s1) => load_atoms_latin1_loop n_atoms ld s1
  | Res.err e => Res.err e
  | Res.panic m => Res.panic m

/-- `Loader::load_code`: read the five 4-byte header fields (version,
min opcode, max opcode, label count, function count), then read the
remaining `chunk_sz - 20` bytes verbatim with `.unwrap()` into a local
binding that is immediately dropped — the loader state is unchanged.
The Rust subtraction is on `usize`; `chunk_sz < 20` underflows, which is
a panic in a debug build, modelled as a panic here. -/
def Loader.load_code (ld : Loader) (chunk_sz : Nat) (s : List Nat) : Res (Loader × List Nat) :=
  match read_u32be s with
  | Res.ok (_code_ver, s1) =>
    match read_u32be s1 with
    | Res.ok (_min_opcode, s2) =>
      match read_u32be s2 with
      | Res.ok (_max_opcode, s3) =>
        match read_u32be s3 with
        | Res.ok (_n_labels, s4) =>
          match read_u32be s4 with
          | Res.ok (_n_funs, s5) =>
            if chunk_sz < 20 then Res.panic "usize underflow in chunk_sz - 20"
            else
              match read_bytes (chunk_sz - 20) s5 with
              | Res.ok (Except.ok _code, s6) => Res.ok (ld, s6)
              | Res.ok (Except.error _, _) => Res.panic "unwrap on Err in load_code"
              | Res.err e => Res.err e
              | Res.panic m => Res.panic m
          | Res.err e => Res.err e
          | Res.panic m => Res.panic m
        | Res.err e => Res.err e
        | Res.panic m => Res.panic m
      | Res.err e => Res.err e
      | Res.panic m => Res.panic m
    | Res.err e => Res.err e
    | Res.panic m => Res.panic m
  | Res.err e => Res.err e
  | Res.panic m => Res.panic m

/-- Inner loop of `load_imports`: read `n` records of three u32 fields. -/
def load_imports_loop : Nat → Loader → List Nat → Res (Loader × List Nat)
  | 0, ld, s => Res.ok (ld, s)
  | Nat.succ n, ld, s =>
    match read_u32be s with
    | Res.ok (mod_atom, s1) =>
      match read_u32be s1 with
      | Res.ok (fun_atom, s2) =>
        match read_u32be s2 with
        | Res.ok (arity, s3) =>
            load_imports_loop n
              { ld with imports := ld.imports ++ [{ mod_atom, fun_atom, arity }] } s3
        | Res.err e => Res.err e
        | Res.panic m => Res.panic m
      | Res.err e => Res.err e
      | Res.panic m => Res.panic m
    | Res.err e => Res.err e
    | Res.panic m => Res.panic m

/-- `Loader::load_imports` (`ImpT` chunk). -/
def Loader.load_imports (ld : Loader) (s : List Nat) : Res (Loader × List Nat) :=
  match read_u32be s with
  | Res.ok (n_imports, s1) => load_imports_loop n_imports ld s1
  | Res.err e => Res.err e
  | Res.panic m => Res.panic m

/-- Inner loop of `load_exports`: read `n` records of three u32 fields
into a fresh list (the caller stores it into `exports` or `locals`). -/
def load_exports_loop : Nat → List LExport → List Nat → Res (List LExport × List Nat)
  | 0, acc, s => Res.ok (acc, s)
  | Nat.succ n, acc, s =>
    match read_u32be s with
    | Res.ok (fun_atom, s1) =>
      match read_u32be s1 with
      | Res.ok (arity, s2) =>
        match read_u32be s2 with
        | Res.ok (label, s3) =>
            load_exports_loop n (acc ++ [{ fun_atom, arity, label }]) s3
        | Res.err e => Res.err e
        | Res.panic m => Res.panic m
      | Res.err e => Res.err e
      | Res.panic m => Res.panic m
    | Res.err e => Res.err e
    | Res.panic m => Res.panic m

/-- `Loader::load_exports`, the shared decoder for the `ExpT` and `LocT`
chunks (same record shape). -/
def Loader.load_exports (s : List Nat) : Res (List LExport × List Nat) :=
  match read_u32be s with
  | Res.ok (n_exports, s1) => load_exports_loop n_exports [] s1
  | Res.err e => Res.err e
  | Res.panic m => Res.panic m

/-- Inner loop of `load_fun_table`: read `n` records of six u32 fields. -/
def load_fun_table_loop : Nat → Loader → List Nat → Res (Loader × List Nat)
  | 0, ld, s => Res.ok (ld, s)
  | Nat.succ n, ld, s =>
    match read_u32be s with
    | Res.ok (fun_atom, s1) =>
      match read_u32be s1 with
      | Res.ok (arity, s2) =>
        match read_u32be s2 with
        | Res.ok (code_pos, s3) =>
          match read_u32be s3 with
          | Res.ok (index, s4) =>
            match read_u32be s4 with
            | Res.ok (nfree, s5) =>
              match read_u32be s5 with
              | Res.ok (ouniq, s6) =>
                  load_fun_table_loop n
                    { ld with funs :=
                        ld.funs ++ [{ fun_atom, arity, code_pos, index, nfree, ouniq }] } s6
              | Res.err e => Res.err e
              | Res.panic m => Res.panic m
            | Res.err e => Res.err e
            | Res.panic m => Res.panic m
          | Res.err e => Res.err e
          | Res.panic m => Res.panic m
        | Res.err e => Res.err e
        | Res.panic m => Res.panic m
      | Res.err e => Res.err e
      | Res.panic m => Res.panic m
    | Res.err e => Res.err e
    | Res.panic m => Res.panic m

/-- `Loader::load_fun_table` (`FunT` chunk). -/
def Loader.load_fun_table (ld : Loader) (s : List Nat) : Res (Loader × List Nat) :=
  match read_u32be s with
  | Res.ok (n_funs, s1) => load_fun_table_loop n_funs ld s1
  | Res.err e => Res.err e
  | Res.panic m => Res.panic m

/-- Modelled from the spec: the compact operand decoder
(`beam::compact_term`, not part of the given sources) decodes one
encoded operand into a typed value; the line-info chunk only
distinguishes integer operands, atom operands and everything else. -/
inductive CompactTerm where
  | IntegerW : Nat → CompactTerm
  | AtomCT : Nat → CompactTerm
  | OtherCT : CompactTerm
deriving DecidableEq

/-- Modelled from the spec: a stand-in wire format for one compact
operand — a one-byte kind marker (0 = integer, 1 = atom, anything else
= some other operand kind) followed by a 4-byte big-endian payload for
the first two kinds.  Returns its `Result` in-band like the Rust
`compact_term::read`. -/
def compact_term_read (s : List Nat) : Res (Except RtErr CompactTerm × List Nat) :=
  match read_u8 s with
  | Res.ok (0, s1) =>
    match read_u32be s1 with
    | Res.ok (w, s2) => Res.ok (Except.ok (CompactTerm.IntegerW w), s2)
    | Res.err e => Res.err e
    | Res.panic m => Res.panic m
  | Res.ok (1, s1) =>
    match read_u32be s1 with
    | Res.ok (a, s2) => Res.ok (Except.ok (CompactTerm.AtomCT a), s2)
    | Res.err e => Res.err e
    | Res.panic m => Res.panic m
  | Res.ok (_, s1) => Res.ok (Except.ok CompactTerm.OtherCT, s1)
  | Res.err e => Res.err e
  | Res.panic m => Res.panic m

/-- Line-reference loop of `load_line_info`: each operand is either an
integer (a line reference, currently discarded), an atom (switches the
current filename index), or anything else — a `panic!` in the source.
The `.unwrap()` on the decoder's `Result` is also a panic. -/
def load_line_refs_loop : Nat → Nat → List Nat → Res (Nat × List Nat)
  | 0, fname_index, s => Res.ok (fname_index, s)
  | Nat.succ n, fname_index, s =>
    match compact_term_read s with
    | Res.ok (Except.ok (CompactTerm.IntegerW _), s1) => load_line_refs_loop n fname_index s1
    | Res.ok (Except.ok (CompactTerm.AtomCT a), s1) => load_line_refs_loop n a s1
    | Res.ok (Except.ok CompactTerm.OtherCT, _) =>
        Res.panic "Unexpected data in line info section"
    | Res.ok (Except.error _, _) => Res.panic "unwrap on Err in load_line_info"
    | Res.err e => Res.err e
    | Res.panic m => Res.panic m

/-- Filename loop of `load_line_info`: read a u16 length then that many
bytes of UTF-8; the result (including a possible decode error) is bound
to an unused variable and silently discarded. -/
def load_line_fnames_loop : Nat → List Nat → Res (Unit × List Nat)
  | 0, s => Res.ok ((), s)
  | Nat.succ n, s =>
    match read_u16be s with
    | Res.ok (name_size, s1) =>
      match read_str_utf8 name_size s1 with
      | Res.ok (_, s2) => load_line_fnames_loop n s2
      | Res.err e => Res.err e
      | Res.panic m => Res.panic m
    | Res.err e => Res.err e
    | Res.panic m => Res.panic m

/-- `Loader::load_line_info` (`Line` chunk): five u32 header fields, then
the line-reference operands, then the filename table. -/
def Loader.load_line_info (ld : Loader) (s : List Nat) : Res (Loader × List Nat) :=
  match read_u32be s with
  | Res.ok (_version, s1) =>
    match read_u32be s1 with
    | Res.ok (_flags, s2) =>
      match read_u32be s2 with
      | Res.ok (_n_line_instr, s3) =>
        match read_u32be s3 with
        | Res.ok (n_line_refs, s4) =>
          match read_u32be s4 with
          | Res.ok (n_filenames, s5) =>
            match load_line_refs_loop n_line_refs 0 s5 with
            | Res.ok (_, s6) =>
              match load_line_fnames_loop n_filenames s6 with
              | Res.ok (_, s7) => Res.ok (ld, s7)
              | Res.err e => Res.err e
              | Res.panic m => Res.panic m
            | Res.err e => Res.err e
            | Res.panic m => Res.panic m
          | Res.err e => Res.err e
          | Res.panic m => Res.panic m
        | Res.err e => Res.err e
        | Res.panic m => Res.panic m
      | Res.err e => Res.err e
      | Res.panic m => Res.panic m
    | Res.err e => Res.err e
    | Res.panic m => Res.panic m
  | Res.err e => Res.err e
  | Res.panic m => Res.panic m

/-- The error message built for an unrecognized chunk tag:
`format!("{}Unexpected chunk: {}", module(), other)` with
`module() = "BEAM loader: "`. -/
def unexpectedChunkMsg (tag : List Nat) : List Nat :=
  ascii "BEAM loader: Unexpected chunk: " ++ tag

/-- Chunk dispatch from the body of `Loader::load`: route the chunk body
by tag, skip the skip-listed chunks verbatim, and fail with a load error
carrying the tag for anything unrecognized. -/
def dispatchChunk (chunk_h : List Nat) (chunk_sz : Nat) (ld : Loader) (s : List Nat) :
    Res (Loader × List Nat) :=
  if chunk_h = ascii "Atom" then Loader.load_atoms_latin1 ld s
  else if chunk_h = ascii "Attr" then
    match rdSkip chunk_sz s with
    | Res.ok (_, s1) => Res.ok (ld, s1)
    | Res.err e => Res.err e
    | Res.panic m => Res.panic m
  else if chunk_h = ascii "AtU8" then Loader.load_atoms_utf8 ld s
  else if chunk_h = ascii "CInf" then
    match rdSkip chunk_sz s with
    | Res.ok (_, s1) => Res.ok (ld, s1)
    | Res.err e => Res.err e
    | Res.panic m => Res.panic m
  else if chunk_h = ascii "Code" then Loader.load_code ld chunk_sz s
  else if chunk_h = ascii "Dbgi" then
    match rdSkip chunk_sz s with
    | Res.ok (_, s1) => Res.ok (ld, s1)
    | Res.err e => Res.err e
    | Res.panic m => Res.panic m
  else if chunk_h = ascii "ExpT" then
    match Loader.load_exports s with
    | Res.ok (exps, s1) => Res.ok ({ ld with exports := exps }, s1)
    | Res.err e => Res.err e
    | Res.panic m => Res.panic m
  else if chunk_h = ascii "FunT" then Loader.load_fun_table ld s
  else if chunk_h = ascii "ImpT" then Loader.load_imports ld s
  else if chunk_h = ascii "Line" then Loader.load_line_info ld s
  else if chunk_h = ascii "LocT" then
    match Loader.load_exports s with
    | Res.ok (exps, s1) => Res.ok ({ ld with locals := exps }, s1)
    | Res.err e => Res.err e
    | Res.panic m => Res.panic m
  else if chunk_h = ascii "StrT" then
    match rdSkip chunk_sz s with
    | Res.ok (_, s1) => Res.ok (ld, s1)
    | Res.err e => Res.err e
    | Res.panic m => Res.panic m
  else Res.err (RtErr.CodeLoadingFailed (unexpectedChunkMsg chunk_h))

/-- The per-chunk alignment padding from `Loader::load`:
`aligned_sz = 4 * ((chunk_sz + 3) / 4); align = aligned_sz - chunk_sz`. -/
def alignSkip (chunk_sz : Nat) : Nat :=
  4 * ((chunk_sz + 3) / 4) - chunk_sz

/-- The chunk-iteration loop of `Loader::load`: read a 4-byte tag (EOF
here is a clean stop, any other reader error is returned), read the
4-byte chunk length, dispatch the body by tag, then skip to the next
4-byte-aligned offset.  `fuel` bounds the number of iterations; the
top-level `Loader.load` supplies more fuel than any input can consume
(each iteration consumes at least 8 bytes). -/
def loadLoop (fuel : Nat) (ld : Loader) (s : List Nat) : Res (Loader × List Nat) :=
  match read_str_latin1 4 s with
  | Res.ok (Except.error RtErr.CodeLoadingPrematureEOF, _) => Res.ok (ld, s)
  | Res.ok (Except.error e, _) => Res.err e
  | Res.ok (Except.ok chunk_h, s1) =>
    match fuel with
    | 0 => Res.panic "loadLoop out of fuel"
    | Nat.succ fuel1 =>
      match read_u32be s1 with
      | Res.ok (chunk_sz, s2) =>
        match dispatchChunk chunk_h chunk_sz ld s2 with
        | Res.ok (ld2, s3) =>
          match (if 0 < alignSkip chunk_sz
                 then rdSkip (alignSkip chunk_sz) s3
                 else Res.ok ((), s3)) with
          | Res.ok (_, s4) => loadLoop fuel1 ld2 s4
          | Res.err e => Res.err e
          | Res.panic m => Res.panic m
        | Res.err e => Res.err e
        | Res.panic m => Res.panic m
      | Res.err e => Res.err e
      | Res.panic m => Res.panic m
  | Res.err e => Res.err e
  | Res.panic m => Res.panic m

/-- `Loader::load`: check the `FOR1` container magic, read the total
size field (unused), check the `BEAM` format magic, then iterate over
chunks until a clean EOF at a chunk boundary. -/
def Loader.load (ld : Loader) (file : List Nat) : Res (Loader × List Nat) :=
  match ensure_bytes (ascii "FOR1") file with
  | Res.ok (Except.ok _, s1) =>
    match read_u32be s1 with
    | Res.ok (_beam_sz, s2) =>
      match ensure_bytes (ascii "BEAM") s2 with
      | Res.ok (Except.ok _, s3) => loadLoop (s3.length + 1) ld s3
      | Res.ok (Except.error e, _) => Res.err e
      | Res.err e => Res.err e
      | Res.panic m => Res.panic m
    | Res.err e => Res.err e
    | Res.panic m => Res.panic m
  | Res.ok (Except.error e, _) => Res.err e
  | Res.err e => Res.err e
  | Res.panic m => Res.panic m

/-- Modelled from the spec: the VM's shared atom space (`vm::VM`, not part
of the given sources) is an append-only interning table; atom identity is
a stable small integer index. -/
structure VM where
  atoms : List (List Nat)
deriving DecidableEq

/-- Index of a string in the atom space, if already interned. -/
def internIdx : List (List Nat) → List Nat → Option Nat
  | [], _ => none
  | x :: xs, s => if x = s then some 0 else (internIdx xs s).map (· + 1)

/-- Modelled from the spec: `vm.atom(&a)` interns one string — the
existing index if present, otherwise a fresh index appended at the end —
and returns the VM-level atom term for it. -/
def VM.atom (vm : VM) (s : List Nat) : Term × VM :=
  match internIdx vm.atoms s with
  | some i => (Term.atom i, vm)
  | none => (Term.atom vm.atoms.length, ⟨vm.atoms ++ [s]⟩)

/-- The interning loop of `load_stage2`: intern every raw atom string in
table order, producing one VM term per entry. -/
def internAll : List (List Nat) → VM → (List Term × VM)
  | [], vm => ([], vm)
  | a :: rest, vm =>
    let p := VM.atom vm a
    let q := internAll rest p.2
    (p.1 :: q.1, q.2)

/-- `Loader::load_stage2`: intern all loaded atoms into the VM, then set
`mod_name` to `self.vm_atoms[0]` — an unchecked index, so an empty atom
table is an out-of-bounds panic. -/
def Loader.load_stage2 (ld : Loader) (vm : VM) : Res (Loader × VM) :=
  let p := internAll ld.atom_tab vm
  let va := ld.vm_atoms ++ p.1
  match va.get? 0 with
  | some t => Res.ok ({ ld with vm_atoms := va, mod_name := t }, p.2)
  | none => Res.panic "index out of bounds: vm_atoms[0]"

/-- Modelled from the spec: the module object (`module::Module`, not part
of the given sources) as far as this core populates it — identified by
its already-interned module-name term. -/
structure BeamModule where
  mod_name : Term
deriving DecidableEq

/-- `Loader::load_finalize`: construct the module object from the
committed module name and return it (always `Ok` in the source). -/
def Loader.load_finalize (ld : Loader) : Res BeamModule :=
  Res.ok { mod_name := ld.mod_name }

/-- A code position handle (`emulator::code::CodePtr`): either the null
sentinel ("no caller to return to") or an instruction address. -/
inductive CodePtr where
  | null : CodePtr
  | addr : Nat → CodePtr
deriving DecidableEq

/-- `CodePtr::null()` test. -/
def CodePtr.is_null : CodePtr → Bool
  | CodePtr.null => true
  | CodePtr.addr _ => false

/-- Modelled from the spec: a heap-resident `HOImport` object
(`term::raw::ho_import`, not part of the given sources) resolves to
either a built-in identity (`is_bif`) or a code address; resolution of
the code address itself can fail when the target module is absent
(`dest = none`). -/
structure HOImport where
  is_bif : Bool
  dest : Option Nat
deriving DecidableEq

/-- Modelled from the spec: `HOImport::from_term` inspects a tagged
term and succeeds exactly when it is a boxed pointer to an `HOImport`
heap object. -/
def HOImport.from_term : Term → Except Unit HOImport
  | Term.boxImport b d => Except.ok { is_bif := b, dest := d }
  | _ => Except.error ()

/-- Modelled from the spec: `HOImport::resolve` yields the callable code
address, or an error when the import cannot be resolved. -/
def HOImport.resolve (imp : HOImport) : Except Unit CodePtr :=
  match imp.dest with
  | some n => Except.ok (CodePtr.addr n)
  | none => Except.error ()

/-- Modelled from the spec: `is_box` checks for a boxed (pointer-tagged)
term — a code reference or a heap reference. -/
def Term.is_box : Term → Bool
  | Term.boxCode _ => true
  | Term.boxImport _ _ => true
  | _ => false

/-- Modelled from the spec: `small_get_u` reads the unsigned value of an
embedded small-integer operand.  The Rust accessor extracts bits without
a check; for a non-small term the result is unspecified, modelled as 0. -/
def Term.small_get_u : Term → Nat
  | Term.small n => n
  | _ => 0

/-- `CodePtr::from_cp`: decode a boxed code location into a code
address.  For a non-box term the Rust cast yields garbage (guarded only
by a `debug_assert!` at the call sites), modelled as null. -/
def CodePtr.from_cp : Term → CodePtr
  | Term.boxCode n => CodePtr.addr n
  | _ => CodePtr.null

/-- The exception class carried by a raised exception
(`rt_defs::ExceptionType`). -/
inductive ExceptionType where
  | Error : ExceptionType
  | Throw : ExceptionType
  | Exit : ExceptionType
deriving DecidableEq

/-- The uniform opcode-handler result (`vm_loop::DispatchResult`):
continue normally, or an exception was raised. -/
inductive DispatchResult where
  | Normal : DispatchResult
  | Error : ExceptionType → Term → DispatchResult
deriving DecidableEq

/-- Modelled from the spec: the process heap — an allocation log for
terms built on error paths, plus the control-stack depth read by the
`return` opcode's fault classification. -/
structure Heap where
  mem : List Term
  stack_depth : Nat
deriving DecidableEq

/-- The per-process execution context (`runtime_ctx::Context`): the code
area the instruction stream is fetched from, the instruction pointer,
the continuation pointer, the live-register count, and the register
file. -/
structure Context where
  code : List Term
  ip : CodePtr
  cp : CodePtr
  live : Nat
  regs : List Term
deriving DecidableEq

/-- Modelled from the spec: `ctx.fetch_term()` reads the operand term at
`ip` from the instruction stream and advances `ip` by one slot; fetching
outside the code area is wild memory access, modelled as a panic. -/
def Context.fetch_term (ctx : Context) : Res (Term × Context) :=
  match ctx.ip with
  | CodePtr.null => Res.panic "fetch_term at null ip"
  | CodePtr.addr i =>
    match ctx.code.get? i with
    | some t => Res.ok (t, { ctx with ip := CodePtr.addr (i + 1) })
    | none => Res.panic "fetch_term out of code area"

/-- The process as seen by these opcodes (`emulator::process::Process`):
it owns the heap; the externally determined outcome of a built-in call
made on its behalf is carried alongside (see `call_bif`). -/
structure Process where
  heap : Heap
  bif_outcome : DispatchResult
deriving DecidableEq

/-- Modelled from the spec: `make_badfun` builds the `{badfun, Value}`
error term from the offending value, allocating on the process heap. -/
def badfunAtom : Term := Term.atom 0

/-- Modelled from the spec: allocate and return the `{badfun, Value}`
tuple. -/
def make_badfun (v : Term) (h : Heap) : Term × Heap :=
  (Term.tuple2 badfunAtom v, { h with mem := h.mem ++ [Term.tuple2 badfunAtom v] })

/-- Modelled from the spec: `call_bif` is a pass-through invocation point
into the external BIF dispatch mechanism; its result is determined
externally, carried here on the process. -/
def call_bif (ctx : Context) (curr_p : Process) (_arity : Nat) (_is_tail : Bool) :
    Res (DispatchResult × Context × Process) :=
  Res.ok (curr_p.bif_outcome, ctx, curr_p)

/-- BEAM generated-opcode numbers used by these handlers
(`beam::gen_op`). -/
def OPCODE_FUNC_INFO : Nat := 2

/-- Opcode number of `call`. -/
def OPCODE_CALL : Nat := 4

/-- Opcode number of `call_only`. -/
def OPCODE_CALL_ONLY : Nat := 6

/-- Opcode number of `call_ext`. -/
def OPCODE_CALL_EXT : Nat := 7

/-- Opcode number of `return`. -/
def OPCODE_RETURN : Nat := 19

/-- Opcode number of `badmatch`. -/
def OPCODE_BADMATCH : Nat := 72

/-- Opcode number of `call_ext_only`. -/
def OPCODE_CALL_EXT_ONLY : Nat := 78

/-- Modelled from the spec: the generated arity table consulted by
`assert_arity` — the declared operand count of each opcode handled in
this core. -/
def gen_op_arity (op : Nat) : Nat :=
  if op = OPCODE_FUNC_INFO then 3
  else if op = OPCODE_CALL then 2
  else if op = OPCODE_CALL_ONLY then 2
  else if op = OPCODE_CALL_EXT then 2
  else if op = OPCODE_RETURN then 0
  else if op = OPCODE_BADMATCH then 1
  else if op = OPCODE_CALL_EXT_ONLY then 2
  else 0

/-- Modelled from the spec: `assert_arity` is the defensive check that
the operand count a handler consumes matches the opcode's declared
arity; a mismatch is a programming-error-grade failure (a panic). -/
def assert_arity (op : Nat) (n : Nat) : Res Unit :=
  if gen_op_arity op = n then Res.ok () else Res.panic "assert_arity mismatch"

/-- `opcode_call`: set `live` from the arity operand, save the address of
the next instruction into `cp`, and jump to the decoded location.  The
`debug_assert!` that the location is a box is modelled as a panic (debug
build semantics). -/
def opcode_call (ctx : Context) (curr_p : Process) :
    Res (DispatchResult × Context × Process) :=
  match assert_arity OPCODE_CALL 2 with
  | Res.ok _ =>
    match ctx.fetch_term with
    | Res.ok (arity, ctx1) =>
      let ctx2 := { ctx1 with live := arity.small_get_u }
      match ctx2.fetch_term with
      | Res.ok (location, ctx3) =>
        if location.is_box then
          let ctx4 := { ctx3 with cp := ctx3.ip }
          let ctx5 := { ctx4 with ip := CodePtr.from_cp location }
          Res.ok (DispatchResult.Normal, ctx5, curr_p)
        else Res.panic "Call location must be a box"
      | Res.err e => Res.err e
      | Res.panic m => Res.panic m
    | Res.err e => Res.err e
    | Res.panic m => Res.panic m
  | Res.err e => Res.err e
  | Res.panic m => Res.panic m

/-- `opcode_call_only`: like `opcode_call` but `cp` is not updated — a
tail call. -/
def opcode_call_only (ctx : Context) (curr_p : Process) :
    Res (DispatchResult × Context × Process) :=
  match assert_arity OPCODE_CALL_ONLY 2 with
  | Res.ok _ =>
    match ctx.fetch_term with
    | Res.ok (arity, ctx1) =>
      let ctx2 := { ctx1 with live := arity.small_get_u }
      match ctx2.fetch_term with
      | Res.ok (location, ctx3) =>
        if location.is_box then
          let ctx4 := { ctx3 with ip := CodePtr.from_cp location }
          Res.ok (DispatchResult.Normal, ctx4, curr_p)
        else Res.panic "Call location must be a box"
      | Res.err e => Res.err e
      | Res.panic m => Res.panic m
    | Res.err e => Res.err e
    | Res.panic m => Res.panic m
  | Res.err e => Res.err e
  | Res.panic m => Res.panic m

/-- `shared_call_ext`: fetch the arity and the import operand; a valid
`HOImport` either dispatches to the BIF shim or jumps to the resolved
address (saving `cp` only when `save_cp`); an invalid operand builds a
`{badfun, _}` error from the original operand. -/
def shared_call_ext (ctx : Context) (curr_p : Process) (save_cp : Bool) :
    Res (DispatchResult × Context × Process) :=
  match ctx.fetch_term with
  | Res.ok (arity_t, ctx1) =>
    let arity := arity_t.small_get_u
    let ctx2 := { ctx1 with live := arity }
    match ctx2.fetch_term with
    | Res.ok (imp0, ctx3) =>
      match HOImport.from_term imp0 with
      | Except.ok import_v =>
        if import_v.is_bif then
          call_bif ctx3 curr_p arity true
        else
          let ctx4 := if save_cp then { ctx3 with cp := ctx3.ip } else ctx3
          match import_v.resolve with
          | Except.ok target => Res.ok (DispatchResult.Normal, { ctx4 with ip := target }, curr_p)
          | Except.error _ => Res.panic "unwrap on Err in shared_call_ext resolve"
      | Except.error _ =>
        let p := make_badfun imp0 curr_p.heap
        Res.ok (DispatchResult.Error ExceptionType.Error p.1, ctx3,
                { curr_p with heap := p.2 })
    | Res.err e => Res.err e
    | Res.panic m => Res.panic m
  | Res.err e => Res.err e
  | Res.panic m => Res.panic m

/-- `opcode_call_ext_only`: tail call through an `HOImport`
destination; `cp` is not updated. -/
def opcode_call_ext_only (ctx : Context) (curr_p : Process) :
    Res (DispatchResult × Context × Process) :=
  match assert_arity OPCODE_CALL_EXT_ONLY 2 with
  | Res.ok _ => shared_call_ext ctx curr_p false
  | Res.err e => Res.err e
  | Res.panic m => Res.panic m

/-- `opcode_call_ext`: call through an `HOImport` destination, saving the
return address into `cp`. -/
def opcode_call_ext (ctx : Context) (curr_p : Process) :
    Res (DispatchResult × Context × Process) :=
  match assert_arity OPCODE_CALL_EXT 2 with
  | Res.ok _ => shared_call_ext ctx curr_p true
  | Res.err e => Res.err e
  | Res.panic m => Res.panic m

/-- `opcode_return`: with a null `cp`, both the empty-stack (normal
process end of life) and non-empty-stack (corrupted continuation) cases
are `panic!` in the source; otherwise jump to `cp` and clear it. -/
def opcode_return (ctx : Context) (curr_p : Process) :
    Res (DispatchResult × Context × Process) :=
  match assert_arity OPCODE_RETURN 0 with
  | Res.ok _ =>
    if ctx.cp.is_null then
      (if curr_p.heap.stack_depth = 0 then
        Res.panic "Process exit: normal"
       else
        Res.panic "Return instruction with 0 in ctx.cp")
    else
      Res.ok (DispatchResult.Normal,
              { ctx with ip := ctx.cp, cp := CodePtr.null }, curr_p)
  | Res.err e => Res.err e
  | Res.panic m => Res.panic m

/-- `opcode_func_info`: fetch the module, function and arity operands and
`panic!` with a function_clause failure — always fatal in the source. -/
def opcode_func_info (ctx : Context) (_curr_p : Process) :
    Res (DispatchResult × Context × Process) :=
  match assert_arity OPCODE_FUNC_INFO 3 with
  | Res.ok _ =>
    match ctx.fetch_term with
    | Res.ok (_m, ctx1) =>
      match ctx1.fetch_term with
      | Res.ok (_f, ctx2) =>
        match ctx2.fetch_term with
        | Res.ok (_arity, _ctx3) => Res.panic "function_clause"
        | Res.err e => Res.err e
        | Res.panic m => Res.panic m
      | Res.err e => Res.err e
      | Res.panic m => Res.panic m
    | Res.err e => Res.err e
    | Res.panic m => Res.panic m
  | Res.err e => Res.err e
  | Res.panic m => Res.panic m

/-- `opcode_badmatch`: build a `{badmatch, Value}` error from the fetched
value.  `fetch_and_load` is modelled from the spec as fetching the
operand and loading its value (the operand itself for the term shapes
modelled here); `make_badmatch` mirrors `make_badfun`. -/
def badmatchAtom : Term := Term.atom 1

/-- Modelled from the spec: allocate and return the `{badmatch, Value}`
tuple. -/
def make_badmatch (v : Term) (h : Heap) : Term × Heap :=
  (Term.tuple2 badmatchAtom v, { h with mem := h.mem ++ [Term.tuple2 badmatchAtom v] })

/-- `opcode_badmatch` handler body. -/
def opcode_badmatch (ctx : Context) (curr_p : Process) :
    Res (DispatchResult × Context × Process) :=
  match assert_arity OPCODE_BADMATCH 1 with
  | Res.ok _ =>
    match ctx.fetch_term with
    | Res.ok (val, ctx1) =>
      let p := make_badmatch val curr_p.heap
      Res.ok (DispatchResult.Error ExceptionType.Error p.1, ctx1,
              { curr_p with heap := p.2 })
    | Res.err e => Res.err e
    | Res.panic m => Res.panic m
  | Res.err e => Res.err e
  | Res.panic m => Res.panic m

/-- The length-prefixed atom-table encoding from the file format: for
each atom, one length byte followed by the atom's bytes. -/
def encAtoms : List (List Nat) → List Nat
  | [] => []
  | a :: r => (a.length :: a) ++ encAtoms r

/-- Body of an `Atom`/`AtU8` chunk: a 4-byte big-endian count followed
by the length-prefixed atom names. -/
def atomChunkBody (as : List (List Nat)) : List Nat :=
  u32be as.length ++ encAtoms as

/-- A synthetic module file: `FOR1` container magic, total-size field,
`BEAM` format magic, a single `AtU8` chunk holding the given atom table,
padded to the next 4-byte boundary. -/
def mkAtomFile (as : List (List Nat)) : List Nat :=
  ascii "FOR1" ++ (u32be 0 ++ (ascii "BEAM" ++ (ascii "AtU8" ++
    (u32be (atomChunkBody as).length ++ (atomChunkBody as ++
      List.replicate (alignSkip (atomChunkBody as).length) 0)))))

/-- The set of chunk tags the loader recognizes or skips; any other tag
is a hard load failure. -/
def recognizedTags : List (List Nat) :=
  [ascii "Atom", ascii "Attr", ascii "AtU8", ascii "CInf", ascii "Code",
   ascii "Dbgi", ascii "ExpT", ascii "FunT", ascii "ImpT", ascii "Line",
   ascii "LocT", ascii "StrT"]

/-- A synthetic file whose first chunk carries the given (unrecognized)
tag and a zero length. -/
def mkBadTagFile (t : List Nat) : List Nat :=
  ascii "FOR1" ++ (u32be 0 ++ (ascii "BEAM" ++ (t ++ u32be 0)))

/-- A file whose `AtU8` chunk is truncated inside an atom body: it
declares one atom of 10 bytes but only 3 bytes remain. -/
def truncAtomFile : List Nat :=
  ascii "FOR1" ++ (u32be 0 ++ (ascii "BEAM" ++ (ascii "AtU8" ++
    (u32be 20 ++ (u32be 1 ++ (10 :: [65, 66, 67]))))))

/-- A file whose `Code` chunk is truncated inside the body: it declares
24 bytes (20 header + 4 blob) but ends right after the header. -/
def truncCodeFile : List Nat :=
  ascii "FOR1" ++ (u32be 0 ++ (ascii "BEAM" ++ (ascii "Code" ++
    (u32be 24 ++ (u32be 1 ++ (u32be 0 ++ (u32be 0 ++ (u32be 0 ++ u32be 0))))))))

/-- A file with valid magics and no chunks at all (clean EOF at the
first chunk boundary), hence an empty atom table after `load`. -/
def headerOnlyFile : List Nat :=
  ascii "FOR1" ++ (u32be 0 ++ ascii "BEAM")

/-- A file holding exactly one `Code` chunk whose blob is the given four
bytes (chunk length 24 = 20 header bytes + 4 blob bytes, already
4-byte-aligned). -/
def mkCodeOnlyFile (blob4 : List Nat) : List Nat :=
  ascii "FOR1" ++ (u32be 0 ++ (ascii "BEAM" ++ (ascii "Code" ++
    (u32be 24 ++ (u32be 1 ++ (u32be 16 ++ (u32be 200 ++ (u32be 7 ++
      (u32be 2 ++ blob4)))))))))

/-- Reading exactly the length of a known prefix yields that prefix. -/
theorem read_bytes_exact (xs s : List Nat) :
    read_bytes xs.length (xs ++ s) = Res.ok (Except.ok xs, s) := by
  unfold read_bytes
  rw [if_pos]
  · rw [List.take_left, List.drop_left]
  · simp

/-- `read_str_utf8` on a known prefix. -/
theorem read_str_utf8_exact (xs s : List Nat) :
    read_str_utf8 xs.length (xs ++ s) = Res.ok (Except.ok xs, s) := by
  unfold read_str_utf8; exact read_bytes_exact xs s

/-- `read_str_latin1` on a known prefix. -/
theorem read_str_latin1_exact (xs s : List Nat) :
    read_str_latin1 xs.length (xs ++ s) = Res.ok (Except.ok xs, s) := by
  unfold read_str_latin1; exact read_bytes_exact xs s

/-- `ensure_bytes` succeeds on a matching prefix. -/
theorem ensure_bytes_exact (pat s : List Nat) :
    ensure_bytes pat (pat ++ s) = Res.ok (Except.ok (), s) := by
  unfold ensure_bytes
  rw [if_pos, if_pos]
  · rw [List.drop_left]
  · rw [List.take_left]
  · simp

/-- `rdSkip` over a known prefix. -/
theorem rdSkip_exact (xs s : List Nat) :
    rdSkip xs.length (xs ++ s) = Res.ok ((), s) := by
  unfold rdSkip
  rw [if_pos]
  · rw [List.drop_left]
  · simp

/-- Decoding the 4-byte big-endian encoding of a 32-bit value recovers
the value. -/
theorem read_u32be_u32 (n : Nat) (s : List Nat) (h : n < 4294967296) :
    read_u32be (u32be n ++ s) = Res.ok (n, s) := by
  show Res.ok (((n / 16777216 % 256 * 256 + n / 65536 % 256) * 256 +
      n / 256 % 256) * 256 + n % 256, s) = Res.ok (n, s)
  have hd : ((n / 16777216 % 256 * 256 + n / 65536 % 256) * 256 +
      n / 256 % 256) * 256 + n % 256 = n := by omega
  rw [hd]

/-- Claim C2: the claim says a truncated chunk body yields a returned load
error and never a panic; on the code as written, truncation inside an
atom-table chunk body or inside the code chunk body hits an `.unwrap()`
on the reader's `Err` and panics. -/
theorem truncated_chunk_body_panics :
    Res.isPanic (Loader.load Loader.new truncAtomFile) = true ∧
    Res.isPanic (Loader.load Loader.new truncCodeFile) = true := by
  decide

/-- Claim C10: the function `load`, on a file with no atom chunk succeeds with an empty atom
table, and `load_stage2` then panics on the unchecked `vm_atoms[0]`
index, for every VM state. -/
theorem load_stage2_empty_atom_table_panics :
    Loader.load Loader.new headerOnlyFile = Res.ok (Loader.new, []) ∧
    ∀ vm : VM, Res.isPanic (Loader.load_stage2 Loader.new vm) = true := by
  constructor
  · decide
  · intro vm
    rfl

/-- Claim C9 counterexample: loading a file whose only chunk is a `Code` chunk
leaves the loader state exactly `Loader.new`, for two different code
blobs — the loader state retains nothing of the code bytes, refuting the
claim that it keeps them as an opaque blob. -/
theorem code_blob_not_retained :
    Loader.load Loader.new (mkCodeOnlyFile [222, 173, 190, 239]) =
      Res.ok (Loader.new, []) ∧
    Loader.load Loader.new (mkCodeOnlyFile [1, 2, 3, 4]) =
      Res.ok (Loader.new, []) := by
  decide

/-- A successful `internIdx` lookup returns an index holding the string. -/
theorem internIdx_get (l : List (List Nat)) (s : List Nat) (i : Nat)
    (h : internIdx l s = some i) : l.get? i = some s := by
  induction l generalizing i with
  | nil => simp [internIdx] at h
  | cons x xs ih =>
    by_cases hx : x = s
    · simp [internIdx, hx] at h
      subst h
      simp [hx]
    · simp [internIdx, hx] at h
      obtain ⟨j, hj, hji⟩ := h
      subst hji
      simpa using ih j hj

/-- `VM.atom` returns an atom term whose index resolves to the interned
string, only ever appending to the atom space. -/
theorem VM_atom_spec (vm : VM) (s : List Nat) :
    ∃ i ext, VM.atom vm s = (Term.atom i, ⟨vm.atoms ++ ext⟩) ∧
      (vm.atoms ++ ext).get? i = some s ∧ i < (vm.atoms ++ ext).length := by
  unfold VM.atom
  cases h : internIdx vm.atoms s with
  | none =>
    refine ⟨vm.atoms.length, [s], rfl, ?_, ?_⟩
    · exact List.get?_concat_length vm.atoms s
    · simp
  | some i =>
    refine ⟨i, [], ?_, ?_, ?_⟩
    · simp
    · simpa using internIdx_get vm.atoms s i h
    · have := internIdx_get vm.atoms s i h
      have hlen := List.get?_eq_some.mp this
      simpa using hlen.1

/-- `internAll` only ever appends to the VM atom space. -/
theorem internAll_ext (l : List (List Nat)) (vm : VM) :
    ∃ ext, (internAll l vm).2.atoms = vm.atoms ++ ext := by
  induction l generalizing vm with
  | nil => exact ⟨[], by simp [internAll]⟩
  | cons a r ih =>
    obtain ⟨i, ext, hterm, _, _⟩ := VM_atom_spec vm a
    obtain ⟨ext2, hext2⟩ := ih (VM.atom vm a).2
    refine ⟨ext ++ ext2, ?_⟩
    simp only [internAll]
    rw [hext2, hterm]
    simp [List.append_assoc]

/-- Interning a nonempty atom table yields an atom term at the head
whose index resolves, in the final VM, to the first string. -/
theorem internAll_head (a : List Nat) (rest : List (List Nat)) (vm : VM) :
    ∃ i ts vm2, internAll (a :: rest) vm = (Term.atom i :: ts, vm2) ∧
      vm2.atoms.get? i = some a := by
  obtain ⟨i, ext, hterm, hget, hlt⟩ := VM_atom_spec vm a
  obtain ⟨ext2, hext2⟩ := internAll_ext rest (VM.atom vm a).2
  refine ⟨i, (internAll rest (VM.atom vm a).2).1,
          (internAll rest (VM.atom vm a).2).2, ?_, ?_⟩
  · simp only [internAll]
    rw [hterm]
  · rw [hext2, hterm]
    simp only
    rw [List.get?_append]
    · exact hget
    · exact hlt

/-- The chunk loop stops cleanly (EOF is not an error) on empty input. -/
theorem loadLoop_nil (fuel : Nat) (ld : Loader) :
    loadLoop fuel ld [] = Res.ok (ld, []) := by
  unfold loadLoop
  rfl


/-- The atom-reading loop over an exact encoding of `as` appends `as` to
the atom table and consumes exactly the encoding. -/
theorem load_atoms_utf8_loop_enc (as : List (List Nat)) (ld : Loader) (s : List Nat) :
    load_atoms_utf8_loop as.length ld (encAtoms as ++ s) =
      Res.ok ({ ld with atom_tab := ld.atom_tab ++ as }, s) := by
  induction as generalizing ld with
  | nil =>
    simp [encAtoms, load_atoms_utf8_loop]
  | cons a r ih =>
    show load_atoms_utf8_loop (r.length + 1) ld
        (((a.length :: a) ++ encAtoms r) ++ s) = _
    simp only [List.cons_append, List.append_assoc]
    simp only [load_atoms_utf8_loop, read_u8]
    rw [read_str_utf8_exact a (encAtoms r ++ s)]
    simp only
    rw [ih { ld with atom_tab := ld.atom_tab ++ [a] }]
    simp [List.append_assoc]

/-- `load_atoms_utf8` over an exact atom-chunk body. -/
theorem load_atoms_utf8_body (as : List (List Nat)) (ld : Loader) (s : List Nat)
    (h : as.length < 4294967296) :
    Loader.load_atoms_utf8 ld (atomChunkBody as ++ s) =
      Res.ok ({ ld with atom_tab := ld.atom_tab ++ as }, s) := by
  unfold Loader.load_atoms_utf8 atomChunkBody
  rw [List.append_assoc, read_u32be_u32 as.length (encAtoms as ++ s) h]
  exact load_atoms_utf8_loop_enc as ld s

/-- One iteration of the chunk loop: a 4-byte tag, a declared length
`L`, a body the chunk handler consumes exactly, and `alignSkip L`
padding bytes; the loop resumes reading the next chunk tag right after
the padding. -/
theorem loadLoop_chunk_step (tag : List Nat) (L : Nat) (ld ld2 : Loader)
    (body pad rest : List Nat) (fuel : Nat)
    (htag : tag.length = 4) (hL : L < 4294967296)
    (hdisp : dispatchChunk tag L ld (body ++ (pad ++ rest)) = Res.ok (ld2, pad ++ rest))
    (hpad : pad.length = alignSkip L) :
    loadLoop (fuel + 1) ld (tag ++ (u32be L ++ (body ++ (pad ++ rest)))) =
      loadLoop fuel ld2 rest := by
  have hre : read_str_latin1 4 (tag ++ (u32be L ++ (body ++ (pad ++ rest)))) =
      Res.ok (Except.ok tag, u32be L ++ (body ++ (pad ++ rest))) := by
    rw [← htag]; exact read_str_latin1_exact tag _
  have hu : read_u32be (u32be L ++ (body ++ (pad ++ rest))) =
      Res.ok (L, body ++ (pad ++ rest)) := read_u32be_u32 L _ hL
  conv_lhs => rw [loadLoop]
  rw [hre]
  simp only
  rw [hu]
  simp only
  rw [hdisp]
  simp only
  by_cases h0 : 0 < alignSkip L
  · rw [if_pos h0]
    have hsk : rdSkip (alignSkip L) (pad ++ rest) = Res.ok ((), rest) := by
      rw [← hpad]; exact rdSkip_exact pad rest
    rw [hsk]
  · rw [if_neg h0]
    have hpnil : pad = [] := List.length_eq_zero.mp (by omega)
    subst hpnil
    simp

/-- Claim C8: for a chunk with declared body length `L` whose handler consumes
exactly the body, the loop skips exactly `((L + 3) / 4) * 4 - L` padding
bytes (at most 3, none when `L` is a multiple of 4) before reading the
next chunk tag, which is therefore read at the next 4-byte-aligned
offset. -/
theorem chunk_alignment_padding (tag : List Nat) (L : Nat) (ld ld2 : Loader)
    (body pad rest : List Nat) (fuel : Nat)
    (htag : tag.length = 4) (hL : L < 4294967296)
    (hdisp : dispatchChunk tag L ld (body ++ (pad ++ rest)) = Res.ok (ld2, pad ++ rest))
    (hpad : pad.length = alignSkip L) :
    (loadLoop (fuel + 1) ld (tag ++ (u32be L ++ (body ++ (pad ++ rest)))) =
      loadLoop fuel ld2 rest) ∧
    alignSkip L = ((L + 3) / 4) * 4 - L ∧
    alignSkip L ≤ 3 ∧
    (L % 4 = 0 → alignSkip L = 0) ∧
    (L + alignSkip L) % 4 = 0 := by
  refine ⟨loadLoop_chunk_step tag L ld ld2 body pad rest fuel htag hL hdisp hpad,
    ?_, ?_, ?_, ?_⟩ <;> (unfold alignSkip; omega)

/-- Witness for the chunk-alignment theorem at a concrete odd-length
`StrT` chunk (length 5, three padding bytes). -/
theorem chunk_alignment_padding_witness :
    ((ascii "StrT").length = 4 ∧ (5 : Nat) < 4294967296 ∧
     dispatchChunk (ascii "StrT") 5 Loader.new ([9, 9, 9, 9, 9] ++ ([0, 0, 0] ++ [])) =
       Res.ok (Loader.new, [0, 0, 0] ++ []) ∧
     ([0, 0, 0] : List Nat).length = alignSkip 5) ∧
    ((loadLoop (0 + 1) Loader.new
        (ascii "StrT" ++ (u32be 5 ++ ([9, 9, 9, 9, 9] ++ ([0, 0, 0] ++ [])))) =
       loadLoop 0 Loader.new []) ∧
     alignSkip 5 = ((5 + 3) / 4) * 4 - 5 ∧
     alignSkip 5 ≤ 3 ∧
     ((5 : Nat) % 4 = 0 → alignSkip 5 = 0) ∧
     (5 + alignSkip 5) % 4 = 0) :=
  ⟨⟨by decide, by decide, by decide, by decide⟩,
   chunk_alignment_padding (ascii "StrT") 5 Loader.new Loader.new
     [9, 9, 9, 9, 9] [0, 0, 0] [] 0 (by decide) (by decide) (by decide) (by decide)⟩

/-- Claim C7: a file whose chunk tag is not in the recognized-or-skipped set
makes `load` return (not panic) a load error whose message contains the
4-byte tag. -/
theorem unknown_chunk_tag_error (t : List Nat) (htag : t.length = 4)
    (hnot : t ∉ recognizedTags) :
    Loader.load Loader.new (mkBadTagFile t) =
      Res.err (RtErr.CodeLoadingFailed (unexpectedChunkMsg t)) ∧
    List.IsInfix t (unexpectedChunkMsg t) := by
  simp only [recognizedTags, List.mem_cons, List.not_mem_nil, or_false, not_or] at hnot
  obtain ⟨h1, h2, h3, h4, h5, h6, h7, h8, h9, h10, h11, h12⟩ := hnot
  constructor
  · unfold Loader.load mkBadTagFile
    rw [ensure_bytes_exact (ascii "FOR1") _]
    simp only
    rw [read_u32be_u32 0 _ (by norm_num)]
    simp only
    rw [ensure_bytes_exact (ascii "BEAM") _]
    simp only
    conv_lhs => rw [loadLoop]
    rw [show read_str_latin1 4 (t ++ u32be 0) =
          Res.ok (Except.ok t, u32be 0) from by
        rw [← htag]; exact read_str_latin1_exact t _]
    simp only
    rw [show read_u32be (u32be 0) = Res.ok (0, []) from rfl]
    simp only
    unfold dispatchChunk
    rw [if_neg h1, if_neg h2, if_neg h3, if_neg h4, if_neg h5, if_neg h6,
        if_neg h7, if_neg h8, if_neg h9, if_neg h10, if_neg h11, if_neg h12]
  · exact ⟨ascii "BEAM loader: Unexpected chunk: ", [], by simp [unexpectedChunkMsg]⟩

/-- Witness for the unknown-tag theorem at the concrete tag `XxYz`. -/
theorem unknown_chunk_tag_error_witness :
    (([88, 120, 89, 122] : List Nat).length = 4 ∧
     ([88, 120, 89, 122] : List Nat) ∉ recognizedTags) ∧
    (Loader.load Loader.new (mkBadTagFile [88, 120, 89, 122]) =
       Res.err (RtErr.CodeLoadingFailed (unexpectedChunkMsg [88, 120, 89, 122])) ∧
     List.IsInfix [88, 120, 89, 122] (unexpectedChunkMsg [88, 120, 89, 122])) :=
  ⟨⟨by decide, by decide⟩,
   unknown_chunk_tag_error [88, 120, 89, 122] (by decide) (by decide)⟩

/-- Claim C1: for a valid module file (here: any well-formed file whose atom
chunk holds a nonempty atom table), `load`, `load_stage2` and
`load_finalize` all succeed, the committed atom list's entry 0 is
recorded as the module name, and that name's interned value is
byte-for-byte the atom at index 0 of the file's atom table. -/
theorem load_pipeline_module_name (a : List Nat) (rest : List (List Nat)) (vm : VM)
    (_ha : a.length ≤ 255) (_hrest : ∀ x ∈ rest, x.length ≤ 255)
    (hcount : (a :: rest).length < 4294967296)
    (hbody : (atomChunkBody (a :: rest)).length < 4294967296) :
    ∃ ld ld2 vm2 i,
      Loader.load Loader.new (mkAtomFile (a :: rest)) = Res.ok (ld, []) ∧
      ld.atom_tab = a :: rest ∧
      Loader.load_stage2 ld vm = Res.ok (ld2, vm2) ∧
      ld2.mod_name = Term.atom i ∧
      ld2.vm_atoms.get? 0 = some ld2.mod_name ∧
      vm2.atoms.get? i = some a ∧
      Loader.load_finalize ld2 = Res.ok { mod_name := Term.atom i } := by
  obtain ⟨i, ts, vm2, hintern, hget⟩ := internAll_head a rest vm
  refine ⟨{ Loader.new with atom_tab := a :: rest },
          { atom_tab := a :: rest, vm_atoms := Term.atom i :: ts,
            imports := [], exports := [], locals := [], funs := [],
            mod_name := Term.atom i },
          vm2, i, ?_, rfl, ?_, rfl, rfl, hget, rfl⟩
  · have hdisp : dispatchChunk (ascii "AtU8") (atomChunkBody (a :: rest)).length
        Loader.new
        (atomChunkBody (a :: rest) ++
          (List.replicate (alignSkip (atomChunkBody (a :: rest)).length) 0 ++ [])) =
        Res.ok ({ Loader.new with atom_tab := a :: rest },
          List.replicate (alignSkip (atomChunkBody (a :: rest)).length) 0 ++ []) := by
      unfold dispatchChunk
      rw [if_neg (by decide), if_neg (by decide), if_pos rfl]
      rw [load_atoms_utf8_body (a :: rest) Loader.new _ hcount]
      rfl
    have hsplit : ascii "AtU8" ++ (u32be (atomChunkBody (a :: rest)).length ++
        (atomChunkBody (a :: rest) ++
          List.replicate (alignSkip (atomChunkBody (a :: rest)).length) 0)) =
        ascii "AtU8" ++ (u32be (atomChunkBody (a :: rest)).length ++
        (atomChunkBody (a :: rest) ++
          (List.replicate (alignSkip (atomChunkBody (a :: rest)).length) 0 ++ []))) := by
      simp
    unfold Loader.load mkAtomFile
    rw [ensure_bytes_exact (ascii "FOR1") _]
    simp only
    rw [read_u32be_u32 0 _ (by norm_num)]
    simp only
    rw [ensure_bytes_exact (ascii "BEAM") _]
    simp only
    rw [hsplit]
    rw [loadLoop_chunk_step (ascii "AtU8") (atomChunkBody (a :: rest)).length
        Loader.new { Loader.new with atom_tab := a :: rest }
        (atomChunkBody (a :: rest))
        (List.replicate (alignSkip (atomChunkBody (a :: rest)).length) 0) [] _
        (by decide) hbody hdisp (by simp)]
    exact loadLoop_nil _ _
  · unfold Loader.load_stage2
    simp only
    rw [hintern]
    rfl

/-- Witness for the pipeline theorem at the one-atom file with atom
`"m"` (byte 109) and an empty VM. -/
theorem load_pipeline_module_name_witness :
    (([109] : List Nat).length ≤ 255 ∧
     (∀ x ∈ ([] : List (List Nat)), x.length ≤ 255) ∧
     ([[109]] : List (List Nat)).length < 4294967296 ∧
     (atomChunkBody [[109]]).length < 4294967296) ∧
    (∃ ld ld2 vm2 i,
      Loader.load Loader.new (mkAtomFile [[109]]) = Res.ok (ld, []) ∧
      ld.atom_tab = [[109]] ∧
      Loader.load_stage2 ld ⟨[]⟩ = Res.ok (ld2, vm2) ∧
      ld2.mod_name = Term.atom i ∧
      ld2.vm_atoms.get? 0 = some ld2.mod_name ∧
      vm2.atoms.get? i = some [109] ∧
      Loader.load_finalize ld2 = Res.ok { mod_name := Term.atom i }) :=
  ⟨⟨by decide, by simp, by decide, by decide⟩,
   load_pipeline_module_name [109] [] ⟨[]⟩ (by decide) (by simp) (by decide) (by decide)⟩

/-- Shared contract of `opcode_call` used both by its own claim and by
the call-then-return composition: live set from the arity operand, `cp`
set to the address after the two operands, `ip` set to the decoded
location. -/
theorem opcode_call_spec (code : List Term) (X arity L : Nat) (cp0 : CodePtr)
    (live0 : Nat) (regs : List Term) (p : Process)
    (h1 : code.get? X = some (Term.small arity))
    (h2 : code.get? (X + 1) = some (Term.boxCode L)) :
    opcode_call ⟨code, CodePtr.addr X, cp0, live0, regs⟩ p =
      Res.ok (DispatchResult.Normal,
        ⟨code, CodePtr.addr L, CodePtr.addr (X + 2), arity, regs⟩, p) := by
  unfold opcode_call
  rw [show assert_arity OPCODE_CALL 2 = Res.ok () from rfl]
  simp only [Context.fetch_term]
  rw [h1]
  simp only
  rw [h2]
  simp only [Term.small_get_u, Term.is_box, if_pos]
  rfl

/-- Shared contract of `opcode_return` on a non-null `cp`: jump to `cp`,
clear it, leave every other context field and the process untouched. -/
theorem opcode_return_spec (ctx : Context) (p : Process) (c : Nat)
    (h : ctx.cp = CodePtr.addr c) :
    opcode_return ctx p =
      Res.ok (DispatchResult.Normal,
        { ctx with ip := CodePtr.addr c, cp := CodePtr.null }, p) := by
  unfold opcode_return
  rw [show assert_arity OPCODE_RETURN 0 = Res.ok () from rfl]
  simp only
  rw [h]
  simp [CodePtr.is_null]

/-- Claim C4: the handler `opcode_call`, with operands (arity, location) at `ip = X` sets
`live` to the arity, `cp` to the next-instruction address `X + 2`, `ip`
to the decoded location, and returns `Normal`. -/
theorem opcode_call_contract (code : List Term) (X arity L : Nat) (cp0 : CodePtr)
    (live0 : Nat) (regs : List Term) (p : Process)
    (h1 : code.get? X = some (Term.small arity))
    (h2 : code.get? (X + 1) = some (Term.boxCode L)) :
    opcode_call ⟨code, CodePtr.addr X, cp0, live0, regs⟩ p =
      Res.ok (DispatchResult.Normal,
        ⟨code, CodePtr.addr L, CodePtr.addr (X + 2), arity, regs⟩, p) :=
  opcode_call_spec code X arity L cp0 live0 regs p h1 h2

/-- Witness for the `opcode_call` contract at a concrete context. -/
theorem opcode_call_contract_witness :
    (([Term.small 3, Term.boxCode 7] : List Term).get? 0 = some (Term.small 3) ∧
     ([Term.small 3, Term.boxCode 7] : List Term).get? (0 + 1) = some (Term.boxCode 7)) ∧
    opcode_call ⟨[Term.small 3, Term.boxCode 7], CodePtr.addr 0, CodePtr.null, 0, []⟩
        ⟨⟨[], 0⟩, DispatchResult.Normal⟩ =
      Res.ok (DispatchResult.Normal,
        ⟨[Term.small 3, Term.boxCode 7], CodePtr.addr 7, CodePtr.addr (0 + 2), 3, []⟩,
        ⟨⟨[], 0⟩, DispatchResult.Normal⟩) :=
  ⟨⟨by decide, by decide⟩,
   opcode_call_contract [Term.small 3, Term.boxCode 7] 0 3 7 CodePtr.null 0 []
     ⟨⟨[], 0⟩, DispatchResult.Normal⟩ (by decide) (by decide)⟩

/-- Claim C6: the handler `opcode_call_only` sets `live` and jumps like `call`, returns
`Normal`, and leaves `cp` exactly as it was. -/
theorem opcode_call_only_contract (code : List Term) (X arity L : Nat) (cp0 : CodePtr)
    (live0 : Nat) (regs : List Term) (p : Process)
    (h1 : code.get? X = some (Term.small arity))
    (h2 : code.get? (X + 1) = some (Term.boxCode L)) :
    opcode_call_only ⟨code, CodePtr.addr X, cp0, live0, regs⟩ p =
      Res.ok (DispatchResult.Normal,
        ⟨code, CodePtr.addr L, cp0, arity, regs⟩, p) := by
  unfold opcode_call_only
  rw [show assert_arity OPCODE_CALL_ONLY 2 = Res.ok () from rfl]
  simp only [Context.fetch_term]
  rw [h1]
  simp only
  rw [h2]
  simp only [Term.small_get_u, Term.is_box, if_pos]
  rfl

/-- Witness for the `opcode_call_only` contract with a non-null starting
`cp` that is preserved across the tail call. -/
theorem opcode_call_only_contract_witness :
    (([Term.small 2, Term.boxCode 9] : List Term).get? 0 = some (Term.small 2) ∧
     ([Term.small 2, Term.boxCode 9] : List Term).get? (0 + 1) = some (Term.boxCode 9)) ∧
    opcode_call_only ⟨[Term.small 2, Term.boxCode 9], CodePtr.addr 0, CodePtr.addr 42, 5, []⟩
        ⟨⟨[], 0⟩, DispatchResult.Normal⟩ =
      Res.ok (DispatchResult.Normal,
        ⟨[Term.small 2, Term.boxCode 9], CodePtr.addr 9, CodePtr.addr 42, 2, []⟩,
        ⟨⟨[], 0⟩, DispatchResult.Normal⟩) :=
  ⟨⟨by decide, by decide⟩,
   opcode_call_only_contract [Term.small 2, Term.boxCode 9] 0 2 9 (CodePtr.addr 42) 5 []
     ⟨⟨[], 0⟩, DispatchResult.Normal⟩ (by decide) (by decide)⟩

/-- Claim C5: the handler `opcode_return` on a non-null `cp` sets `ip` to the old `cp`,
clears `cp` to the null sentinel, returns `Normal` and modifies nothing
else; consequently a `call` followed by a `return` leaves `ip` at the
address following the call instruction. -/
theorem opcode_return_contract (ctx : Context) (p : Process) (c : Nat)
    (h : ctx.cp = CodePtr.addr c) :
    (opcode_return ctx p =
      Res.ok (DispatchResult.Normal,
        { ctx with ip := CodePtr.addr c, cp := CodePtr.null }, p)) ∧
    (∀ (code : List Term) (X arity L : Nat) (cp0 : CodePtr) (live0 : Nat)
       (regs : List Term) (q : Process),
       code.get? X = some (Term.small arity) →
       code.get? (X + 1) = some (Term.boxCode L) →
       ∃ ctx1 ctx2,
         opcode_call ⟨code, CodePtr.addr X, cp0, live0, regs⟩ q =
           Res.ok (DispatchResult.Normal, ctx1, q) ∧
         opcode_return ctx1 q = Res.ok (DispatchResult.Normal, ctx2, q) ∧
         ctx2.ip = CodePtr.addr (X + 2) ∧ ctx2.cp = CodePtr.null) :=
  ⟨opcode_return_spec ctx p c h,
   fun code X arity L cp0 live0 regs q hh1 hh2 =>
     ⟨⟨code, CodePtr.addr L, CodePtr.addr (X + 2), arity, regs⟩,
      ⟨code, CodePtr.addr (X + 2), CodePtr.null, arity, regs⟩,
      opcode_call_spec code X arity L cp0 live0 regs q hh1 hh2,
      opcode_return_spec ⟨code, CodePtr.addr L, CodePtr.addr (X + 2), arity, regs⟩
        q (X + 2) rfl,
      rfl, rfl⟩⟩

/-- Witness for the `opcode_return` contract at a concrete context. -/
theorem opcode_return_contract_witness :
    (Context.cp ⟨[], CodePtr.addr 11, CodePtr.addr 5, 1, [Term.atom 3]⟩ = CodePtr.addr 5) ∧
    ((opcode_return ⟨[], CodePtr.addr 11, CodePtr.addr 5, 1, [Term.atom 3]⟩
        ⟨⟨[], 4⟩, DispatchResult.Normal⟩ =
      Res.ok (DispatchResult.Normal,
        ⟨[], CodePtr.addr 5, CodePtr.null, 1, [Term.atom 3]⟩,
        ⟨⟨[], 4⟩, DispatchResult.Normal⟩)) ∧
    (∀ (code : List Term) (X arity L : Nat) (cp0 : CodePtr) (live0 : Nat)
       (regs : List Term) (q : Process),
       code.get? X = some (Term.small arity) →
       code.get? (X + 1) = some (Term.boxCode L) →
       ∃ ctx1 ctx2,
         opcode_call ⟨code, CodePtr.addr X, cp0, live0, regs⟩ q =
           Res.ok (DispatchResult.Normal, ctx1, q) ∧
         opcode_return ctx1 q = Res.ok (DispatchResult.Normal, ctx2, q) ∧
         ctx2.ip = CodePtr.addr (X + 2) ∧ ctx2.cp = CodePtr.null)) :=
  ⟨by decide,
   opcode_return_contract ⟨[], CodePtr.addr 11, CodePtr.addr 5, 1, [Term.atom 3]⟩
     ⟨⟨[], 4⟩, DispatchResult.Normal⟩ 5 rfl⟩

/-- Shared badfun contract of `shared_call_ext` on an operand that is
not a valid `HOImport`: the handler returns (never panics) a badfun
exception built from the original operand, leaves `cp` untouched, and
`ip` rests just past the two fetched operands. -/
theorem shared_call_ext_badfun (code : List Term) (X arity : Nat) (op : Term)
    (cp0 : CodePtr) (live0 : Nat) (regs : List Term) (p : Process) (save_cp : Bool)
    (h1 : code.get? X = some (Term.small arity))
    (h2 : code.get? (X + 1) = some op)
    (h3 : HOImport.from_term op = Except.error ()) :
    shared_call_ext ⟨code, CodePtr.addr X, cp0, live0, regs⟩ p save_cp =
      Res.ok (DispatchResult.Error ExceptionType.Error (Term.tuple2 badfunAtom op),
        ⟨code, CodePtr.addr (X + 2), cp0, arity, regs⟩,
        { p with heap :=
            { p.heap with mem := p.heap.mem ++ [Term.tuple2 badfunAtom op] } }) := by
  unfold shared_call_ext
  simp only [Context.fetch_term]
  rw [h1]
  simp only
  rw [h2]
  simp only [Term.small_get_u]
  rw [h3]
  simp only [make_badfun]

/-- Claim C3 (amended): on an import operand that is not a valid `HOImport`,
both `call_ext` and `call_ext_only` return — never panic — a badfun
exception built from the original unresolved operand, leave `cp`
unchanged, and leave `ip` advanced exactly past the instruction's two
operands (to `X + 2`) with no control transfer. -/
theorem call_ext_unresolved_badfun (code : List Term) (X arity : Nat) (op : Term)
    (cp0 : CodePtr) (live0 : Nat) (regs : List Term) (p : Process)
    (h1 : code.get? X = some (Term.small arity))
    (h2 : code.get? (X + 1) = some op)
    (h3 : HOImport.from_term op = Except.error ()) :
    (opcode_call_ext ⟨code, CodePtr.addr X, cp0, live0, regs⟩ p =
      Res.ok (DispatchResult.Error ExceptionType.Error (Term.tuple2 badfunAtom op),
        ⟨code, CodePtr.addr (X + 2), cp0, arity, regs⟩,
        { p with heap :=
            { p.heap with mem := p.heap.mem ++ [Term.tuple2 badfunAtom op] } })) ∧
    (opcode_call_ext_only ⟨code, CodePtr.addr X, cp0, live0, regs⟩ p =
      Res.ok (DispatchResult.Error ExceptionType.Error (Term.tuple2 badfunAtom op),
        ⟨code, CodePtr.addr (X + 2), cp0, arity, regs⟩,
        { p with heap :=
            { p.heap with mem := p.heap.mem ++ [Term.tuple2 badfunAtom op] } })) := by
  constructor
  · unfold opcode_call_ext
    rw [show assert_arity OPCODE_CALL_EXT 2 = Res.ok () from rfl]
    simp only
    exact shared_call_ext_badfun code X arity op cp0 live0 regs p true h1 h2 h3
  · unfold opcode_call_ext_only
    rw [show assert_arity OPCODE_CALL_EXT_ONLY 2 = Res.ok () from rfl]
    simp only
    exact shared_call_ext_badfun code X arity op cp0 live0 regs p false h1 h2 h3

/-- Witness for the amended call_ext badfun theorem at a concrete
context whose `cp` is non-null (and visibly preserved). -/
theorem call_ext_unresolved_badfun_witness :
    (([Term.small 1, Term.atom 7] : List Term).get? 0 = some (Term.small 1) ∧
     ([Term.small 1, Term.atom 7] : List Term).get? (0 + 1) = some (Term.atom 7) ∧
     HOImport.from_term (Term.atom 7) = Except.error ()) ∧
    ((opcode_call_ext ⟨[Term.small 1, Term.atom 7], CodePtr.addr 0, CodePtr.addr 50, 9, []⟩
        ⟨⟨[], 0⟩, DispatchResult.Normal⟩ =
      Res.ok (DispatchResult.Error ExceptionType.Error
          (Term.tuple2 badfunAtom (Term.atom 7)),
        ⟨[Term.small 1, Term.atom 7], CodePtr.addr (0 + 2), CodePtr.addr 50, 1, []⟩,
        ⟨⟨[] ++ [Term.tuple2 badfunAtom (Term.atom 7)], 0⟩, DispatchResult.Normal⟩)) ∧
    (opcode_call_ext_only ⟨[Term.small 1, Term.atom 7], CodePtr.addr 0, CodePtr.addr 50, 9, []⟩
        ⟨⟨[], 0⟩, DispatchResult.Normal⟩ =
      Res.ok (DispatchResult.Error ExceptionType.Error
          (Term.tuple2 badfunAtom (Term.atom 7)),
        ⟨[Term.small 1, Term.atom 7], CodePtr.addr (0 + 2), CodePtr.addr 50, 1, []⟩,
        ⟨⟨[] ++ [Term.tuple2 badfunAtom (Term.atom 7)], 0⟩, DispatchResult.Normal⟩))) :=
  ⟨⟨by decide, by decide, rfl⟩,
   call_ext_unresolved_badfun [Term.small 1, Term.atom 7] 0 1 (Term.atom 7)
     (CodePtr.addr 50) 9 [] ⟨⟨[], 0⟩, DispatchResult.Normal⟩
     (by decide) (by decide) rfl⟩

/-- Claim C3 counterexample: on the unresolvable-import error path the
handler does change the context's `ip` (it rests past the two fetched
operands), so "leaves ip unchanged" fails as stated. -/
theorem call_ext_unresolved_moves_ip :
    opcode_call_ext_only ⟨[Term.small 0, Term.atom 7], CodePtr.addr 0, CodePtr.null, 0, []⟩
        ⟨⟨[], 0⟩, DispatchResult.Normal⟩ =
      Res.ok (DispatchResult.Error ExceptionType.Error
          (Term.tuple2 badfunAtom (Term.atom 7)),
        ⟨[Term.small 0, Term.atom 7], CodePtr.addr 2, CodePtr.null, 0, []⟩,
        ⟨⟨[Term.tuple2 badfunAtom (Term.atom 7)], 0⟩, DispatchResult.Normal⟩) ∧
    Context.ip ⟨[Term.small 0, Term.atom 7], CodePtr.addr 2, CodePtr.null, 0, []⟩ ≠
      Context.ip ⟨[Term.small 0, Term.atom 7], CodePtr.addr 0, CodePtr.null, 0, []⟩ := by
  decide

/-- Claim C9 (amended): for a `Code` chunk of declared length `L`, the loader
reads the five 4-byte header fields and then the remaining `L - 20`
bytes verbatim with no per-instruction decoding — but the blob is
dropped: the loader state after the chunk is exactly the state before
it (the `Loader` struct has no code field). -/
theorem load_code_reads_and_drops_blob (ld : Loader) (ver mo mx nl nf : Nat)
    (blob rest : List Nat) (L : Nat)
    (hver : ver < 4294967296) (hmo : mo < 4294967296) (hmx : mx < 4294967296)
    (hnl : nl < 4294967296) (hnf : nf < 4294967296)
    (hL : L = 20 + blob.length) :
    Loader.load_code ld L
      (u32be ver ++ (u32be mo ++ (u32be mx ++ (u32be nl ++ (u32be nf ++
        (blob ++ rest)))))) = Res.ok (ld, rest) := by
  unfold Loader.load_code
  rw [read_u32be_u32 ver _ hver]
  simp only
  rw [read_u32be_u32 mo _ hmo]
  simp only
  rw [read_u32be_u32 mx _ hmx]
  simp only
  rw [read_u32be_u32 nl _ hnl]
  simp only
  rw [read_u32be_u32 nf _ hnf]
  simp only
  rw [if_neg (by omega)]
  rw [show L - 20 = blob.length from by omega]
  rw [read_bytes_exact blob rest]

/-- Witness for the code-chunk theorem at a concrete header and blob. -/
theorem load_code_reads_and_drops_blob_witness :
    ((1 : Nat) < 4294967296 ∧ (16 : Nat) < 4294967296 ∧ (200 : Nat) < 4294967296 ∧
     (7 : Nat) < 4294967296 ∧ (2 : Nat) < 4294967296 ∧
     (23 : Nat) = 20 + ([5, 6, 7] : List Nat).length) ∧
    Loader.load_code Loader.new 23
      (u32be 1 ++ (u32be 16 ++ (u32be 200 ++ (u32be 7 ++ (u32be 2 ++
        ([5, 6, 7] ++ [42])))))) = Res.ok (Loader.new, [42]) :=
  ⟨⟨by decide, by decide, by decide, by decide, by decide, by decide⟩,
   load_code_reads_and_drops_blob Loader.new 1 16 200 7 2 [5, 6, 7] [42] 23
     (by decide) (by decide) (by decide) (by decide) (by decide) (by decide)⟩
